import Mathlib

set_option maxRecDepth 40000

/-!
Verification of the kiosko-tef-bridge TEF II protocol engine and serial
transaction coordinator, as implemented in src/lib/SerialManager.js
(the SerialManager class and the second, current revision of the
TEFProtocol class).  Byte sequences are modelled as List Nat, JavaScript
strings as lists of UTF-16 code-unit values.
-/

namespace TefBridge

/-- Code units of a string literal, modelling a JavaScript string value. -/
def jsStr (s : String) : List Nat := s.data.map Char.toNat

/-- The half-open byte range [a, b) of a buffer, modelling Buffer.subarray(a, b). -/
def slice (l : List Nat) (a b : Nat) : List Nat := (l.drop a).take (b - a)

/-- Index search helper carrying the running absolute index. -/
def idxOfAux (x : Nat) : List Nat → Nat → Option Nat
  | [], _ => none
  | a :: t, i => if a = x then some i else idxOfAux x t (i + 1)

/-- First index of byte x, modelling Buffer.indexOf(x) (none for -1). -/
def idxOf (x : Nat) (l : List Nat) : Option Nat := idxOfAux x l 0

/-- First index of byte x at or after position s, modelling Buffer.indexOf(x, s). -/
def idxOfFrom (x : Nat) (l : List Nat) (s : Nat) : Option Nat :=
  (idxOf x (l.drop s)).map (fun k => k + s)

/-- XOR-fold of a byte list; the running value of the lrc variable in calculateLRC. -/
def lrcVal (l : List Nat) : Nat := l.foldl (fun a b => a ^^^ b) 0

/-- TEFProtocol.calculateLRC: XOR of all bytes, returned as a 1-byte buffer. -/
def calculateLRC (l : List Nat) : List Nat := [lrcVal l]

/-- Base-expansion digits (most significant first) produced with explicit fuel,
modelling Number.prototype.toString with a radix. -/
def digitsAux (base : Nat) : Nat → Nat → List Nat
  | 0, _ => []
  | fuel + 1, n => if n < base then [n] else digitsAux base fuel (n / base) ++ [n % base]

/-- Decimal digit values of n, most significant first. -/
def decDigits (n : Nat) : List Nat := digitsAux 10 (n + 1) n

/-- Hexadecimal digit values of n, most significant first. -/
def hexDigits (n : Nat) : List Nat := digitsAux 16 (n + 1) n

/-- ASCII code units of the decimal rendering of n, modelling String(n). -/
def decAscii (n : Nat) : List Nat := (decDigits n).map (fun d => 48 + d)

/-- Left padding to a given width, modelling String.prototype.padStart. -/
def padStartD (pad width : Nat) (l : List Nat) : List Nat :=
  List.replicate (width - l.length) pad ++ l

/-- Pair a list of hex digit values into bytes, modelling Buffer.from(s, hex):
each pair of hex characters becomes one byte, a trailing unpaired digit is dropped. -/
def hexPairs : List Nat → List Nat
  | a :: b :: t => (16 * a + b) :: hexPairs t
  | _ => []

/-- TEFProtocol.buildLength: the 4-digit zero-padded decimal string of the length is
produced and then hex-decoded into bytes (two bytes, a BCD-style encoding). -/
def buildLength (messageLength : Nat) : List Nat :=
  hexPairs (padStartD 0 4 (decDigits messageLength))

/-- ASCII rendering of n in lowercase hexadecimal, modelling n.toString(16). -/
def hexAscii (n : Nat) : List Nat :=
  (hexDigits n).map (fun d => if d < 10 then 48 + d else 87 + d)

/-- Uppercase hex rendering of one byte, as used by Buffer.toString(hex) plus
toUpperCase(). -/
def byteHexUpper (b : Nat) : List Nat :=
  [(fun d => if d < 10 then 48 + d else 55 + d) (b / 16 % 16),
   (fun d => if d < 10 then 48 + d else 55 + d) (b % 16)]

/-- Uppercase hex string of a byte buffer. -/
def hexKey (bytes : List Nat) : List Nat := (bytes.map byteHexUpper).flatten

/-- Decode bytes as ASCII text, modelling Buffer.toString(ascii): the high bit
of every byte is masked off. -/
def bufferAscii (l : List Nat) : List Nat := l.map (fun b => b % 128)

/-- ASCII whitespace recognised by String.prototype.trim (the only whitespace
code points representable after the ascii decoding mask). -/
def isJsSpace (c : Nat) : Bool := c = 32 || (9 ≤ c && c ≤ 13)

/-- Modelling String.prototype.trim on a code-unit list. -/
def jsTrim (l : List Nat) : List Nat :=
  ((l.dropWhile isJsSpace).reverse.dropWhile isJsSpace).reverse

/-- TEFProtocol.TRANSPORT_HEADER, hex 36303030303030303030. -/
def TRANSPORT_HEADER : List Nat := jsStr ("6000000000")

/-- TEFProtocol.HEADERS.COMPRA, hex 31303030303030. -/
def HEADER_COMPRA : List Nat := jsStr ("1000000")

/-- TEFProtocol.HEADERS.COMPRA_CON_PAN, hex 31303030303030 (same bytes as COMPRA). -/
def HEADER_COMPRA_CON_PAN : List Nat := jsStr ("1000000")

/-- TEFProtocol.buildField: 2 ASCII decimal digits of the field number, then the
hex-decoded 4-hex-digit length (two bytes), then the value padded with spaces
or truncated to the declared length. -/
def buildField (fieldType : Nat) (value : List Nat) (flen : Option Nat) : List Nat :=
  let typeBuffer := padStartD 48 2 (decAscii fieldType)
  let actualLength := flen.getD value.length
  let valueBuffer :=
    if value.length < actualLength then value ++ List.replicate (actualLength - value.length) 32
    else value.take actualLength
  let lengthBuffer := hexPairs (padStartD 0 4 (hexDigits actualLength))
  typeBuffer ++ lengthBuffer ++ valueBuffer

/-- The purchase request data destructured at the top of buildPurchaseFrame.
All properties are modelled as present (the source defaults for cashierId and
terminalId self-reference the binding being destructured and would throw when
the property is absent). -/
structure PurchaseReq where
  amount : Nat
  tax : Nat
  tip : Nat
  iac : Nat
  cashierId : List Nat
  terminalId : List Nat
  transactionId : List Nat
  sendPan : Bool
deriving DecidableEq

/-- Right padding with spaces followed by substring(0, width), as applied to the
cashier, terminal and transaction identifiers. -/
def padEndTrunc (width : Nat) (l : List Nat) : List Nat :=
  (l ++ List.replicate (width - l.length) 32).take width

/-- The message assembled by buildPurchaseFrame before ETX is appended:
transport header, presentation header, then each field preceded by one 0x1C
separator. -/
def purchaseMessage (r : PurchaseReq) : List Nat :=
  let amountStr := padStartD 48 12 (decAscii r.amount)
  let taxStr := padStartD 48 12 (decAscii r.tax)
  let tipStr := padStartD 48 12 (decAscii r.tip)
  let iacStr := padStartD 48 12 (decAscii r.iac)
  let cashierStr := padEndTrunc 12 r.cashierId
  let terminalStr := padEndTrunc 10 r.terminalId
  let transactionStr := padEndTrunc 10 r.transactionId
  let presentationHeader := if r.sendPan then HEADER_COMPRA_CON_PAN else HEADER_COMPRA
  let fields :=
    [buildField 40 amountStr (some 12),
     buildField 41 taxStr (some 12),
     buildField 42 terminalStr (some 10),
     buildField 53 transactionStr (some 10),
     buildField 81 tipStr (some 12),
     buildField 82 iacStr (some 12),
     buildField 83 cashierStr (some 12),
     buildField 84 (jsStr ("000000000000")) (some 12)]
  fields.foldl (fun msg f => msg ++ 28 :: f) (TRANSPORT_HEADER ++ presentationHeader)

/-- The complete purchase frame: STX, the length bytes computed before ETX is
appended, the message, ETX, and the LRC over length plus message plus ETX. -/
def purchaseFrameCore (r : PurchaseReq) : List Nat :=
  let msg := purchaseMessage r
  let lengthB := buildLength msg.length
  let msgE := msg ++ [3]
  2 :: (lengthB ++ msgE ++ calculateLRC (lengthB ++ msgE))

/-- TEFProtocol.buildPurchaseFrame: throws when amount is falsy or transactionId
is falsy, otherwise returns the assembled frame. -/
def buildPurchaseFrame (r : PurchaseReq) : Except (List Nat) (List Nat) :=
  if r.amount = 0 ∨ r.transactionId = [] then
    Except.error (jsStr ("Monto y transactionId son requeridos"))
  else Except.ok (purchaseFrameCore r)

/-- The validation verdict returned by TEFProtocol.validateFrame. -/
structure Validation where
  valid : Bool
  error : Option (List Nat)
deriving DecidableEq

/-- TEFProtocol.validateFrame: length at least 5, STX at position 0, some ETX
present, and the XOR of the bytes from position 1 through the first ETX equal
to the final byte. -/
def validateFrame (frame : List Nat) : Validation :=
  if frame.length < 5 then ⟨false, some (jsStr ("Trama demasiado corta"))⟩
  else if ¬ frame.getD 0 0 = 2 then ⟨false, some (jsStr ("STX no encontrado"))⟩
  else
    match idxOf 3 frame with
    | none => ⟨false, some (jsStr ("ETX no encontrado"))⟩
    | some etxIndex =>
      let expectedLRC := lrcVal (slice frame 1 (etxIndex + 1))
      let receivedLRC := frame.getD (frame.length - 1) 0
      if ¬ expectedLRC = receivedLRC then
        ⟨false, some (jsStr ("LRC inválido. Esperado: ") ++ hexAscii expectedLRC ++
                      jsStr (", Recibido: ") ++ hexAscii receivedLRC)⟩
      else ⟨true, none⟩

/-- One parsed TLV entry as stored in result.fields: the raw value bytes (the
source stores their hex rendering), the ascii-decoded and trimmed text, and the
declared length. -/
structure FieldEntry where
  value : List Nat
  ascii : List Nat
  flen : Nat
deriving DecidableEq

/-- The fields map of a parsed response, keyed by the uppercase hex rendering of
the two type bytes, in JavaScript object insertion order. -/
abbrev Fields : Type := List (List Nat × FieldEntry)

/-- Assignment into a JavaScript object: an existing key keeps its position and
gets the new value, a fresh key is appended. -/
def objSet (l : Fields) (k : List Nat) (v : FieldEntry) : Fields :=
  match l with
  | [] => [(k, v)]
  | (k0, v0) :: t => if k0 = k then (k, v) :: t else (k0, v0) :: objSet t k v

/-- Property read from a JavaScript object. -/
def objGet (l : Fields) (k : List Nat) : Option FieldEntry :=
  match l with
  | [] => none
  | (k0, v0) :: t => if k0 = k then some v0 else objGet t k

/-- The TLV scanning loop of TEFProtocol.parseResponse, with fuel bounding the
number of iterations (each iteration advances the position by at least one). -/
def scanFieldsAux : Nat → List Nat → Nat → Fields → Fields
  | 0, _, _, fields => fields
  | fuel + 1, buf, position, fields =>
    if position < buf.length then
      if buf.getD position 0 = 28 then
        let p1 := position + 1
        if p1 + 2 ≤ buf.length then
          let fieldType := slice buf p1 (p1 + 2)
          let p2 := p1 + 2
          if p2 + 2 ≤ buf.length then
            let lengthBytes := slice buf p2 (p2 + 2)
            let flen := 256 * lengthBytes.getD 0 0 + lengthBytes.getD 1 0
            let p3 := p2 + 2
            if p3 + flen ≤ buf.length then
              let value := slice buf p3 (p3 + flen)
              scanFieldsAux fuel buf (p3 + flen)
                (objSet fields (hexKey fieldType) ⟨value, jsTrim (bufferAscii value), flen⟩)
            else scanFieldsAux fuel buf p3 fields
          else scanFieldsAux fuel buf p2 fields
        else scanFieldsAux fuel buf p1 fields
      else scanFieldsAux fuel buf (position + 1) fields
    else fields

/-- The fields map produced by scanning a whole response buffer. -/
def scanFields (buf : List Nat) : Fields := scanFieldsAux buf.length buf 0 []

/-- The transactionData object built for approved responses. -/
structure TxData where
  amount : List Nat
  authorizationCode : List Nat
  date : List Nat
  time : List Nat
  franchise : List Nat
  accountType : List Nat
  last4 : List Nat
  quotas : List Nat
  responseCode : List Nat
deriving DecidableEq

/-- The value returned by TEFProtocol.parseResponse / validateParsedTransaction. -/
structure TEFResult where
  success : Bool
  status : List Nat
  message : List Nat
  errorCode : Option (List Nat)
  transactionData : Option TxData
deriving DecidableEq

/-- Field ascii text or the empty string, modelling fields?.[k]?.ascii || "". -/
def asciiOrEmpty (fields : Fields) (k : String) : List Nat :=
  ((objGet fields (jsStr k)).map FieldEntry.ascii).getD []

/-- TEFProtocol.validateParsedTransaction: approved exactly when the entry keyed
3438 (the two ASCII bytes of field number 48) exists and its trimmed ascii text
is 00; otherwise a fixed declined result carrying the code. -/
def validateParsedTransaction (fields : Fields) : TEFResult :=
  match (objGet fields (jsStr ("3438"))).map FieldEntry.ascii with
  | some rc =>
    if rc = jsStr ("00") then
      ⟨true, jsStr ("APPROVED"), jsStr ("Transacción aprobada"), none,
       some ⟨asciiOrEmpty fields "3430", asciiOrEmpty fields "3435",
             asciiOrEmpty fields "3436", asciiOrEmpty fields "3437",
             asciiOrEmpty fields "3439", asciiOrEmpty fields "3530",
             asciiOrEmpty fields "3534", asciiOrEmpty fields "3531", rc⟩⟩
    else ⟨false, jsStr ("DECLINED"), jsStr ("Pago rechazado"), some rc, none⟩
  | none => ⟨false, jsStr ("DECLINED"), jsStr ("Pago rechazado"), none, none⟩

/-- TEFProtocol.parseResponse: an empty buffer is declined outright, otherwise
the buffer is scanned for TLVs and the strict approval rule is applied. -/
def parseResponse (responseBuffer : List Nat) : TEFResult :=
  if responseBuffer.length = 0 then
    ⟨false, jsStr ("DECLINED"), jsStr ("Pago rechazado"), none, none⟩
  else validateParsedTransaction (scanFields responseBuffer)

/-- The response-code dictionary of TEFProtocol.getResponseMessage (numeric keys
are stringified by JavaScript object semantics). -/
def responseMessages : List (List Nat × List Nat) :=
  [(jsStr ("00"), jsStr ("Transacción Aprobada")),
   (jsStr ("01"), jsStr ("Contactar entidad")),
   (jsStr ("02"), jsStr ("Contactar entidad")),
   (jsStr ("03"), jsStr ("Comercio no registrado")),
   (jsStr ("04"), jsStr ("Retener tarjeta")),
   (jsStr ("05"), jsStr ("No honrar")),
   (jsStr ("06"), jsStr ("Error")),
   (jsStr ("07"), jsStr ("Retener tarjeta")),
   (jsStr ("12"), jsStr ("Transacción inválida")),
   (jsStr ("13"), jsStr ("Monto inválido")),
   (jsStr ("14"), jsStr ("Tarjeta inválida")),
   (jsStr ("15"), jsStr ("Entidad no válida")),
   (jsStr ("19"), jsStr ("Reintentar")),
   (jsStr ("30"), jsStr ("Error de formato")),
   (jsStr ("41"), jsStr ("Tarjeta perdida")),
   (jsStr ("43"), jsStr ("Tarjeta robada")),
   (jsStr ("51"), jsStr ("Fondos insuficientes")),
   (jsStr ("54"), jsStr ("Tarjeta vencida")),
   (jsStr ("55"), jsStr ("PIN incorrecto")),
   (jsStr ("57"), jsStr ("Transacción no permitida")),
   (jsStr ("58"), jsStr ("Transacción no permitida")),
   (jsStr ("59"), jsStr ("Sospecha de fraude")),
   (jsStr ("61"), jsStr ("Excede límite")),
   (jsStr ("62"), jsStr ("Tarjeta restringida")),
   (jsStr ("63"), jsStr ("Violación de seguridad")),
   (jsStr ("65"), jsStr ("Excede límite")),
   (jsStr ("75"), jsStr ("Excede intentos PIN")),
   (jsStr ("76"), jsStr ("No se encuentra original")),
   (jsStr ("77"), jsStr ("No coincide monto")),
   (jsStr ("78"), jsStr ("Cuenta no existe")),
   (jsStr ("85"), jsStr ("No hay razón para declinar")),
   (jsStr ("91"), jsStr ("Entidad no responde")),
   (jsStr ("92"), jsStr ("Destino no encontrado")),
   (jsStr ("93"), jsStr ("Transacción no puede completarse")),
   (jsStr ("94"), jsStr ("Duplicada")),
   (jsStr ("96"), jsStr ("Error sistema")),
   (jsStr ("99"), jsStr ("Problemas de comunicación"))]

/-- Association lookup in the message dictionary. -/
def msgLookup : List (List Nat × List Nat) → List Nat → Option (List Nat)
  | [], _ => none
  | (k, v) :: t, code => if k = code then some v else msgLookup t code

/-- TEFProtocol.getResponseMessage: dictionary hit or the unknown-code fallback. -/
def getResponseMessage (code : List Nat) : List Nat :=
  (msgLookup responseMessages code).getD (jsStr ("Código desconocido: ") ++ code)

/-- How a pending promise of SerialManager.sendAndReceive was settled. -/
inductive Completion
  | resolved (r : TEFResult)
  | timedOut
deriving DecidableEq

/-- One entry of the pendingResolves map: the Date.now()-based key and the
timeout the caller supplied. -/
structure Pending where
  id : Nat
  timeoutMs : Nat
deriving DecidableEq

/-- The observable state of a SerialManager instance: the connection flag, the
pendingResolves map in insertion order, the reassembly buffer, the byte chunks
written to the port (frames and ACKs), the log of settled promises, and the
list of parsed responses handed to resolvePending. -/
structure SerialState where
  isConnected : Bool
  pending : List Pending
  buffer : List Nat
  sent : List (List Nat)
  completions : List (Nat × Completion)
  decodedLog : List TEFResult
deriving DecidableEq

/-- JavaScript Map.prototype.set: an existing key keeps its position and gets
the new value, a fresh key is appended at the end. -/
def mapSet : List Pending → Nat → Nat → List Pending
  | [], txId, t => [⟨txId, t⟩]
  | p :: rest, txId, t => if p.id = txId then ⟨txId, t⟩ :: rest else p :: mapSet rest txId t

/-- SerialManager.resolvePending: with no pending entry the response is dropped;
otherwise the first-inserted entry is removed and its promise resolved (the
current parseResponse never sets an error property, so the reject branch is
unreachable). -/
def resolvePending (s : SerialState) (response : TEFResult) : SerialState :=
  match s.pending with
  | [] => s
  | p :: rest =>
    { s with pending := rest,
             completions := s.completions ++ [(p.id, Completion.resolved response)] }

/-- The synchronous failure of SerialManager.sendAndReceive. -/
inductive SendErr
  | notConnected
deriving DecidableEq

/-- The default value of the timeout parameter of SerialManager.sendAndReceive. -/
def defaultTimeoutMs : Nat := 60000

/-- SerialManager.sendAndReceive: throws when not connected, otherwise registers
the resolver in pendingResolves under the Date.now() key and writes the frame.
There is no check against an already pending transaction. -/
def sendAndReceive (s : SerialState) (frame : List Nat) (txId timeoutMs : Nat) :
    Except SendErr SerialState :=
  if s.isConnected then
    Except.ok { s with pending := mapSet s.pending txId timeoutMs, sent := s.sent ++ [frame] }
  else Except.error SendErr.notConnected

/-- The setTimeout callback installed by sendAndReceive, fired at expiry: if the
entry is still registered it is deleted and its promise rejected with the
timeout error (once resolved, clearTimeout has disarmed the callback). -/
def fireTimeout (s : SerialState) (txId : Nat) : SerialState :=
  if s.pending.any (fun p => p.id == txId) then
    { s with pending := s.pending.filter (fun p => p.id != txId),
             completions := s.completions ++ [(txId, Completion.timedOut)] }
  else s

/-- SerialManager.processResponseBuffer on an explicit buffer, with fuel
bounding the recursion (every recursive call removes at least two bytes).
A valid candidate frame causes an ACK write, a parse, and resolution of the
oldest pending promise; an invalid candidate is discarded. -/
def processRBFuel : Nat → List Nat → SerialState → SerialState
  | 0, b, s => { s with buffer := b }
  | fuel + 1, b, s =>
    match idxOf 2 b with
    | none => { s with buffer := [] }
    | some stxIndex =>
      match idxOfFrom 3 b stxIndex with
      | none => { s with buffer := b }
      | some etxIndex =>
        let frameLength := etxIndex + 2
        if b.length < frameLength then { s with buffer := b }
        else
          let completeFrame := slice b stxIndex frameLength
          let s1 :=
            if (validateFrame completeFrame).valid then
              resolvePending
                { s with sent := s.sent ++ [[6]],
                         decodedLog := s.decodedLog ++ [parseResponse completeFrame] }
                (parseResponse completeFrame)
            else s
          let rest := b.drop frameLength
          if 0 < rest.length then processRBFuel fuel rest s1
          else { s1 with buffer := rest }

/-- SerialManager.processResponseBuffer. -/
def processResponseBuffer (s : SerialState) : SerialState :=
  processRBFuel s.buffer.length s.buffer s

/-- SerialManager.handleData: append the chunk, drop a lone ACK byte, otherwise
scan the buffer for complete frames. -/
def handleData (s : SerialState) (data : List Nat) : SerialState :=
  let b := s.buffer ++ data
  if b.length = 1 ∧ b.getD 0 0 = 6 then { s with buffer := [] }
  else processResponseBuffer { s with buffer := b }

/-- Feeding a sequence of inbound chunks to SerialManager.handleData. -/
def runDeliveries (s : SerialState) (chunks : List (List Nat)) : SerialState :=
  chunks.foldl handleData s

/-- A frame in the shape both sides of the protocol produce: at least 5 bytes,
STX first, the first ETX as second-to-last byte, and the final byte equal to
the XOR of everything between STX and ETX inclusive. -/
def WellFormedFrame (F : List Nat) : Prop :=
  5 ≤ F.length ∧ F.getD 0 0 = 2 ∧ idxOf 3 F = some (F.length - 2) ∧
    F.getD (F.length - 1) 0 = lrcVal (slice F 1 (F.length - 1))

instance (F : List Nat) : Decidable (WellFormedFrame F) := by
  unfold WellFormedFrame
  infer_instance

/-- The fallback POSIX device names tried by SerialManager.connect. -/
def macPorts : List (List Nat) :=
  [jsStr ("/dev/tty.usbserial"), jsStr ("/dev/ttyUSB0"),
   jsStr ("/dev/ttyACM0"), jsStr ("/dev/ttyS0")]

/-- The environment SerialManager.connect interacts with: the host platform,
the configured port name, the device paths reported by SerialPort.list, and
whether opening the resolved device reports an error. -/
structure ConnectEnv where
  platform : List Nat
  configPort : List Nat
  availablePorts : List (List Nat)
  openError : Bool
deriving DecidableEq

/-- What a caller of connect can observe: whether the returned promise was
rejected (or the function threw), and the resulting isConnected flag. -/
structure ConnectOutcome where
  returnedError : Bool
  connected : Bool
deriving DecidableEq

/-- SerialManager.connect: on non-Windows hosts a configured literal COM3 is
replaced by the first available fallback device (returning silently when none
exists); an open error is logged and the promise still resolved; the catch
block swallows every other failure. -/
def connect (env : ConnectEnv) : ConnectOutcome :=
  if env.platform ≠ jsStr ("win32") ∧ env.configPort = jsStr ("COM3") then
    match macPorts.find? (fun p => env.availablePorts.contains p) with
    | none => ⟨false, false⟩
    | some _ => if env.openError then ⟨false, false⟩ else ⟨false, true⟩
  else if env.openError then ⟨false, false⟩ else ⟨false, true⟩

/-- The object returned by SerialManager.getStatus. -/
structure Status where
  connected : Bool
  port : List Nat
  baudRate : Nat
  platform : List Nat
deriving DecidableEq

/-- SerialManager.getStatus. -/
def getStatus (isConnected : Bool) (cfgPort : List Nat) (baud : Nat) (platform : List Nat) :
    Status :=
  ⟨isConnected, cfgPort, baud, platform⟩

/-- The effect of processResponseBuffer consuming one complete valid frame that
fills the whole buffer: the ACK write, the decode, the resolution of the oldest
pending promise, and the emptied buffer. -/
def consumeFrame (s : SerialState) (F : List Nat) : SerialState :=
  { resolvePending
      { s with sent := s.sent ++ [[6]], decodedLog := s.decodedLog ++ [parseResponse F] }
      (parseResponse F) with buffer := [] }

/-- A sample purchase request (the S6 scenario values). -/
def rSample : PurchaseReq :=
  ⟨5000000, 0, 0, 100, jsStr ("OSCROM"), jsStr ("001"), jsStr ("T000000001"), true⟩

/-- A minimal well-formed frame: STX, two body bytes, ETX, LRC. -/
def Fsmall : List Nat := [2, 48, 52, 3, 7]

/-- A freshly connected coordinator with empty buffer and no pending entry. -/
def smInit : SerialState := ⟨true, [], [], [], [], []⟩

/-- A coordinator with one pending transaction registered under key 1. -/
def busyState : SerialState := ⟨true, [⟨1, 60000⟩], [], [], [], []⟩

/-- Response bytes holding a single TLV: field 48 with value 51. -/
def bs51 : List Nat := [28, 52, 56, 0, 2, 53, 49]

/-- The entry that scanning bs51 stores under key 3438. -/
def e51 : FieldEntry := ⟨[53, 49], [53, 49], 2⟩

/-- A connect environment: macOS host, configured port COM3, no devices, open fails. -/
def envSample : ConnectEnv := ⟨jsStr ("darwin"), jsStr ("COM3"), [], true⟩

/-- Two frames agreeing up to their first ETX and on their last byte but
differing in between. -/
def FsampleA : List Nat := [2, 48, 52, 3, 170, 7]

/-- See FsampleA. -/
def FsampleB : List Nat := [2, 48, 52, 3, 187, 7]

/-- A legal purchase request: nonzero amount, nonempty transaction identifier,
and printable-ASCII identifier strings. -/
def LegalPurchase (r : PurchaseReq) : Prop :=
  r.amount ≠ 0 ∧ r.transactionId ≠ [] ∧
    ∀ b ∈ r.cashierId ++ r.terminalId ++ r.transactionId, 32 ≤ b ∧ b < 127

instance (r : PurchaseReq) : Decidable (LegalPurchase r) := by
  unfold LegalPurchase
  infer_instance

/-! Helper lemmas about the index search, slices, and the XOR fold. -/

lemma idxOfAux_shift (x : Nat) (l : List Nat) :
    ∀ i, idxOfAux x l i = (idxOfAux x l 0).map (fun k => k + i) := by
  induction l with
  | nil => intro i; rfl
  | cons a t ih =>
    intro i
    by_cases h : a = x
    · simp [idxOfAux, h]
    · simp only [idxOfAux, if_neg h]
      rw [ih (i + 1), ih 1]
      cases idxOfAux x t 0 with
      | none => simp
      | some k =>
        simp
        omega

lemma idxOf_cons (x a : Nat) (t : List Nat) :
    idxOf x (a :: t) = if a = x then some 0 else (idxOf x t).map (fun k => k + 1) := by
  by_cases h : a = x <;> simp [idxOf, idxOfAux, h, idxOfAux_shift x t 1]

lemma idxOf_spec (x : Nat) :
    ∀ (l : List Nat) (n : Nat), idxOf x l = some n →
      l[n]? = some x ∧ ∀ j, j < n → l[j]? ≠ some x := by
  intro l
  induction l with
  | nil => intro n h; cases h
  | cons a t ih =>
    intro n h
    rw [idxOf_cons] at h
    by_cases ha : a = x
    · rw [if_pos ha] at h
      have hn : n = 0 := (Option.some.inj h).symm
      subst hn
      exact ⟨by simp [ha], by omega⟩
    · rw [if_neg ha, Option.map_eq_some'] at h
      obtain ⟨k, hk, hkn⟩ := h
      obtain ⟨h1, h2⟩ := ih k hk
      subst hkn
      refine ⟨by simpa using h1, ?_⟩
      intro j hj
      cases j with
      | zero => simpa using ha
      | succ i =>
        rw [List.getElem?_cons_succ]
        exact h2 i (by omega)

lemma idxOf_of (x : Nat) :
    ∀ (l : List Nat) (n : Nat), l[n]? = some x → (∀ j, j < n → l[j]? ≠ some x) →
      idxOf x l = some n := by
  intro l
  induction l with
  | nil => intro n h; cases h
  | cons a t ih =>
    intro n h1 h2
    rw [idxOf_cons]
    by_cases ha : a = x
    · rw [if_pos ha]
      cases n with
      | zero => rfl
      | succ m =>
        exact absurd (by simp [ha]) (h2 0 (by omega))
    · rw [if_neg ha]
      cases n with
      | zero =>
        rw [List.getElem?_cons_zero] at h1
        exact absurd (Option.some.inj h1) ha
      | succ m =>
        rw [List.getElem?_cons_succ] at h1
        have h2' : ∀ j, j < m → t[j]? ≠ some x := by
          intro j hj
          have := h2 (j + 1) (by omega)
          rwa [List.getElem?_cons_succ] at this
        rw [ih m h1 h2']
        rfl

lemma idxOf_eq_none_iff (x : Nat) (l : List Nat) : idxOf x l = none ↔ x ∉ l := by
  induction l with
  | nil => simp [idxOf, idxOfAux]
  | cons a t ih =>
    rw [idxOf_cons]
    by_cases h : a = x
    · simp [h]
    · rw [if_neg h, Option.map_eq_none', ih, List.mem_cons]
      constructor
      · intro hn hc
        rcases hc with hc | hc
        · exact h hc.symm
        · exact hn hc
      · intro hn hc
        exact hn (Or.inr hc)

lemma mem_take_iff (x : Nat) (l : List Nat) (n : Nat) :
    x ∈ l.take n ↔ ∃ j, j < n ∧ l[j]? = some x := by
  rw [List.mem_iff_getElem?]
  constructor
  · intro ⟨j, hj⟩
    rw [List.getElem?_take] at hj
    by_cases hjn : j < n
    · exact ⟨j, hjn, by rwa [if_pos hjn] at hj⟩
    · rw [if_neg hjn] at hj; cases hj
  · intro ⟨j, hjn, hj⟩
    exact ⟨j, by rw [List.getElem?_take, if_pos hjn]; exact hj⟩

lemma slice_getElem? (l : List Nat) (a b i : Nat) :
    (slice l a b)[i]? = if i < b - a then l[a + i]? else none := by
  unfold slice
  rw [List.getElem?_take]
  split
  · rw [List.getElem?_drop]
  · rfl

lemma slice_length (l : List Nat) (a b : Nat) (h1 : b ≤ l.length) (h2 : a ≤ b) :
    (slice l a b).length = b - a := by
  unfold slice
  rw [List.length_take, List.length_drop]
  omega

lemma slice_full (l : List Nat) : slice l 0 l.length = l := by
  unfold slice
  simp

lemma foldl_xor_init (l : List Nat) :
    ∀ i, l.foldl (fun a b => a ^^^ b) i = i ^^^ l.foldl (fun a b => a ^^^ b) 0 := by
  induction l with
  | nil => intro i; simp
  | cons a t ih =>
    intro i
    simp only [List.foldl_cons]
    rw [ih (i ^^^ a), ih (0 ^^^ a), Nat.zero_xor, Nat.xor_assoc]

lemma lrcVal_append (l1 l2 : List Nat) : lrcVal (l1 ++ l2) = lrcVal l1 ^^^ lrcVal l2 := by
  unfold lrcVal
  rw [List.foldl_append, foldl_xor_init]

lemma lrcVal_cons (a : Nat) (l : List Nat) : lrcVal (a :: l) = a ^^^ lrcVal l := by
  unfold lrcVal
  simp only [List.foldl_cons]
  rw [foldl_xor_init, Nat.zero_xor]

lemma xor_left_cancel (a b c : Nat) (h : a ^^^ b = a ^^^ c) : b = c := by
  have h2 := congrArg (fun z => a ^^^ z) h
  simpa [← Nat.xor_assoc, Nat.xor_self, Nat.zero_xor] using h2

lemma xor_left_comm (a b c : Nat) : a ^^^ (b ^^^ c) = b ^^^ (a ^^^ c) := by
  rw [← Nat.xor_assoc, Nat.xor_comm a b, Nat.xor_assoc]

lemma lrcVal_set (l : List Nat) :
    ∀ (i : Nat), i < l.length → ∀ b, lrcVal (l.set i b) = lrcVal l ^^^ l.getD i 0 ^^^ b := by
  induction l with
  | nil => intro i hi; simp at hi
  | cons a t ih =>
    intro i hi b
    cases i with
    | zero =>
      rw [List.set_cons_zero, lrcVal_cons, lrcVal_cons, List.getD_cons_zero,
          Nat.xor_comm a (lrcVal t), Nat.xor_assoc (lrcVal t) a a, Nat.xor_self, Nat.xor_zero,
          Nat.xor_comm b (lrcVal t)]
    | succ j =>
      simp only [List.length_cons] at hi
      rw [List.set_cons_succ, lrcVal_cons, lrcVal_cons, ih j (by omega) b]
      have hg : (a :: t).getD (j + 1) 0 = t.getD j 0 := rfl
      rw [hg]
      simp [Nat.xor_assoc]

lemma getElem?_eq_some_getD (l : List Nat) (n : Nat) (h : n < l.length) :
    l[n]? = some (l.getD n 0) := by
  rw [List.getD_eq_getElem?_getD, List.getElem?_eq_getElem h]
  rfl

lemma idxOfFrom_zero (x : Nat) (l : List Nat) : idxOfFrom x l 0 = idxOf x l := by
  unfold idxOfFrom
  rw [List.drop_zero]
  cases idxOf x l <;> rfl

/-! Lemmas about the coordinator state machine. -/

lemma resolvePending_buffer (s : SerialState) (b : List Nat) (r : TEFResult) :
    resolvePending { s with buffer := b } r = { resolvePending s r with buffer := b } := by
  unfold resolvePending
  cases hp : s.pending <;> simp [hp]

lemma validateFrame_of_wf (F : List Nat) (h : WellFormedFrame F) :
    validateFrame F = ⟨true, none⟩ := by
  obtain ⟨h5, h0, hidx, hlrc⟩ := h
  have hlen : ¬ F.length < 5 := by omega
  have h02 : ¬ ¬ F.getD 0 0 = 2 := by rw [h0]; simp
  simp only [validateFrame, if_neg hlen, if_neg h02, hidx]
  have harith : F.length - 2 + 1 = F.length - 1 := by omega
  rw [harith, if_neg (fun hc => hc hlrc.symm)]

lemma handleData_garbage (s : SerialState) (g : List Nat) (hb : s.buffer = []) (hg : 2 ∉ g) :
    handleData s g = { s with buffer := [] } := by
  unfold handleData
  rw [hb, List.nil_append]
  by_cases hone : g.length = 1 ∧ g.getD 0 0 = 6
  · rw [if_pos hone]
  · rw [if_neg hone]
    show processRBFuel g.length g { s with buffer := g } = { s with buffer := [] }
    cases g with
    | nil => rfl
    | cons a t =>
      simp only [List.length_cons, processRBFuel]
      rw [(idxOf_eq_none_iff 2 (a :: t)).mpr hg]

lemma runDeliveries_garbage (s : SerialState) (gs : List (List Nat)) (hb : s.buffer = [])
    (hg : ∀ g ∈ gs, 2 ∉ g) : runDeliveries s gs = { s with buffer := [] } := by
  induction gs generalizing s with
  | nil =>
    unfold runDeliveries
    rw [List.foldl_nil]
    cases s
    simp at hb
    rw [hb]
  | cons g gs ih =>
    unfold runDeliveries at ih ⊢
    rw [List.foldl_cons, handleData_garbage s g hb (hg g (by simp))]
    rw [ih _ rfl (fun x hx => hg x (by simp [hx]))]

lemma consumeFrame_buffer (s : SerialState) (b F : List Nat) :
    consumeFrame { s with buffer := b } F = consumeFrame s F := by
  unfold consumeFrame resolvePending
  cases hp : s.pending <;> simp [hp]

lemma handleData_completing (s : SerialState) (F c : List Nat) (k : Nat)
    (hF : WellFormedFrame F) (hb : s.buffer = F.take k) (hpre : F.take k ++ c = F) :
    handleData s c = consumeFrame s F := by
  have hval := validateFrame_of_wf F hF
  obtain ⟨h5, h0, hidx, hlrc⟩ := hF
  have hidx2 : idxOf 2 F = some 0 := by
    apply idxOf_of
    · rw [getElem?_eq_some_getD F 0 (by omega), h0]
    · intro j hj
      exact absurd hj (Nat.not_lt_zero j)
  unfold handleData
  rw [hb, hpre]
  have hone : ¬ (F.length = 1 ∧ F.getD 0 0 = 6) := by
    intro hc
    omega
  rw [if_neg hone]
  show processRBFuel F.length F { s with buffer := F } = consumeFrame s F
  cases F with
  | nil => simp at h5
  | cons a F0 =>
    simp only [List.length_cons] at h5 hidx ⊢
    have harith : F0.length + 1 - 2 + 2 = F0.length + 1 := by omega
    have hslice : slice (a :: F0) 0 (F0.length + 1) = a :: F0 := by
      have hsf := slice_full (a :: F0)
      simp only [List.length_cons] at hsf
      exact hsf
    have hdrop : (a :: F0).drop (F0.length + 1) = [] := by
      have hdl := List.drop_length (a :: F0)
      simp only [List.length_cons] at hdl
      exact hdl
    simp only [List.length_cons, processRBFuel, hidx2, idxOfFrom_zero, hidx, harith,
      Nat.lt_irrefl, if_false, hslice, hval, hdrop]
    simp only [if_true]
    unfold consumeFrame resolvePending
    cases hp : s.pending <;> simp [hp]

lemma handleData_midFrame (s : SerialState) (F c : List Nat) (k : Nat) (hF : WellFormedFrame F)
    (hb : s.buffer = F.take k) (hc : c ≠ []) (hkc : k + c.length < F.length)
    (hpre : F.take k ++ c = F.take (k + c.length)) :
    handleData s c = { s with buffer := F.take (k + c.length) } := by
  obtain ⟨h5, h0, hidx, hlrc⟩ := hF
  have hcl : 1 ≤ c.length := by
    cases c with
    | nil => exact absurd rfl hc
    | cons d t => simp
  have hlen : (F.take (k + c.length)).length = k + c.length := by
    rw [List.length_take]
    omega
  have hb0 : (F.take (k + c.length))[0]? = some 2 := by
    rw [List.getElem?_take_of_lt (by omega), getElem?_eq_some_getD F 0 (by omega), h0]
  have hno3 := (idxOf_spec 3 F _ hidx).2
  have hidx2 : idxOf 2 (F.take (k + c.length)) = some 0 := by
    apply idxOf_of _ _ _ hb0
    intro j hj
    exact absurd hj (Nat.not_lt_zero j)
  unfold handleData
  rw [hb, hpre]
  have hone : ¬ ((F.take (k + c.length)).length = 1 ∧ (F.take (k + c.length)).getD 0 0 = 6) := by
    intro hcc
    rw [List.getD_eq_getElem?_getD, hb0] at hcc
    simp at hcc
  rw [if_neg hone]
  show processRBFuel (F.take (k + c.length)).length (F.take (k + c.length))
      { s with buffer := F.take (k + c.length) } = _
  rcases Nat.lt_or_ge (k + c.length) (F.length - 1) with hcase | hcase
  · have hnone : idxOf 3 (F.take (k + c.length)) = none := by
      rw [idxOf_eq_none_iff, mem_take_iff]
      rintro ⟨j, hj, hjv⟩
      exact hno3 j (by omega) hjv
    cases hbc : F.take (k + c.length) with
    | nil =>
      rw [hbc] at hlen
      simp at hlen
      omega
    | cons a t =>
      rw [hbc] at hidx2 hnone
      simp only [List.length_cons, processRBFuel, hidx2, idxOfFrom_zero, hnone]
  · have hk1 : k + c.length = F.length - 1 := by omega
    have hsome : idxOf 3 (F.take (k + c.length)) = some (F.length - 2) := by
      apply idxOf_of
      · rw [List.getElem?_take_of_lt (by omega)]
        exact (idxOf_spec 3 F _ hidx).1
      · intro j hj
        rw [List.getElem?_take]
        split
        · exact hno3 j (by omega)
        · simp
    cases hbc : F.take (k + c.length) with
    | nil =>
      rw [hbc] at hlen
      simp at hlen
      omega
    | cons a t =>
      have hlen2 : (a :: t).length = k + c.length := by
        rw [← hbc, hlen]
      rw [hbc] at hidx2 hsome
      simp only [List.length_cons, processRBFuel, hidx2, idxOfFrom_zero, hsome]
      rw [if_pos (by rw [List.length_cons] at hlen2; omega)]

lemma runDeliveries_frame_chunks (F : List Nat) (hF : WellFormedFrame F) :
    ∀ (cs : List (List Nat)) (k : Nat) (s : SerialState), cs ≠ [] → (∀ c ∈ cs, c ≠ []) →
      s.buffer = F.take k → F.take k ++ cs.flatten = F →
      runDeliveries s cs = consumeFrame s F := by
  intro cs
  induction cs with
  | nil =>
    intro k s hne
    exact absurd rfl hne
  | cons c cs ih =>
    intro k s _ hnonempty hb hcat
    have hk : k ≤ F.length := by
      by_contra hgt
      push_neg at hgt
      rw [List.take_of_length_le (le_of_lt hgt)] at hcat
      have hlf := congrArg List.length hcat
      rw [List.length_append] at hlf
      have h0 : (c :: cs).flatten.length = 0 := by omega
      have hfl : (c :: cs).flatten = [] := List.eq_nil_of_length_eq_zero h0
      have hcne : c ≠ [] := hnonempty c (by simp)
      rw [show (c :: cs).flatten = c ++ cs.flatten from rfl] at hfl
      cases c with
      | nil => exact hcne rfl
      | cons x xs => simp at hfl
    have hlenf := congrArg List.length hcat
    rw [List.length_append, List.length_take, Nat.min_eq_left hk] at hlenf
    unfold runDeliveries
    rw [List.foldl_cons]
    by_cases hcs : cs = []
    · subst hcs
      have hflat : (([c] : List (List Nat)).flatten) = c := by simp
      rw [hflat] at hcat
      exact handleData_completing s F c k hF hb hcat
    · have hflat : (c :: cs).flatten = c ++ cs.flatten := rfl
      have hcsf : 0 < cs.flatten.length := by
        cases cs with
        | nil => exact absurd rfl hcs
        | cons d ds =>
          have hd : d ≠ [] := hnonempty d (by simp)
          have : (d :: ds).flatten = d ++ ds.flatten := rfl
          rw [this, List.length_append]
          cases d with
          | nil => exact absurd rfl hd
          | cons x xs => simp
      rw [hflat, List.length_append] at hlenf
      have hkc : k + c.length < F.length := by omega
      have hlenkc : (F.take k ++ c).length = k + c.length := by
        rw [List.length_append, List.length_take]
        omega
      have hpre_c : F.take k ++ c = F.take (k + c.length) := by
        conv_rhs => rw [← hcat]
        rw [hflat, ← List.append_assoc, List.take_left' hlenkc]
      rw [handleData_midFrame s F c k hF hb (hnonempty c (by simp)) hkc hpre_c]
      have hcat2 : F.take (k + c.length) ++ cs.flatten = F := by
        rw [← hpre_c, List.append_assoc, ← hflat, hcat]
      have := ih (k + c.length) { s with buffer := F.take (k + c.length) } hcs
        (fun x hx => hnonempty x (by simp [hx])) rfl hcat2
      rw [show List.foldl handleData { s with buffer := F.take (k + c.length) } cs =
          runDeliveries { s with buffer := F.take (k + c.length) } cs from rfl, this,
        consumeFrame_buffer]

/-! Lemmas about the purchase frame encoder. -/

lemma digitsAux_mem (base : Nat) (hb : 0 < base) :
    ∀ (fuel n d : Nat), d ∈ digitsAux base fuel n → d < base := by
  intro fuel
  induction fuel with
  | zero =>
    intro n d hd
    simp [digitsAux] at hd
  | succ f ih =>
    intro n d hd
    simp only [digitsAux] at hd
    split at hd
    · rename_i hlt
      rw [List.mem_singleton] at hd
      omega
    · rw [List.mem_append, List.mem_singleton] at hd
      rcases hd with hd | hd
      · exact ih _ _ hd
      · subst hd
        exact Nat.mod_lt _ hb

lemma digitsAux_small (base fuel n : Nat) (hf : 0 < fuel) (hn : n < base) :
    digitsAux base fuel n = [n] := by
  cases fuel with
  | zero => omega
  | succ f => simp [digitsAux, hn]

lemma decDigits_one (n : Nat) (h : n < 10) : decDigits n = [n] :=
  digitsAux_small 10 (n + 1) n (by omega) h

lemma decDigits_two (n : Nat) (h1 : 10 ≤ n) (h2 : n < 100) :
    decDigits n = [n / 10, n % 10] := by
  unfold decDigits
  have hnot : ¬ n < 10 := by omega
  cases n with
  | zero => omega
  | succ m =>
    simp only [digitsAux, if_neg hnot]
    rw [if_pos (show (m + 1) / 10 < 10 by omega)]
    rfl

lemma decAscii_mem (n d : Nat) (hd : d ∈ decAscii n) : 48 ≤ d ∧ d ≤ 57 := by
  unfold decAscii at hd
  rw [List.mem_map] at hd
  obtain ⟨x, hx, hdx⟩ := hd
  have := digitsAux_mem 10 (by omega) _ _ _ hx
  omega

lemma padStartD_mem (pad width : Nat) (l : List Nat) (d : Nat)
    (hd : d ∈ padStartD pad width l) : d = pad ∨ d ∈ l := by
  unfold padStartD at hd
  rw [List.mem_append] at hd
  rcases hd with hd | hd
  · exact Or.inl (List.mem_replicate.mp hd).2
  · exact Or.inr hd

lemma padEndTrunc_mem (w : Nat) (l : List Nat) (b : Nat) (hb : b ∈ padEndTrunc w l) :
    b ∈ l ∨ b = 32 := by
  unfold padEndTrunc at hb
  have hmem := List.mem_of_mem_take hb
  rw [List.mem_append] at hmem
  rcases hmem with h | h
  · exact Or.inl h
  · exact Or.inr (List.mem_replicate.mp h).2

lemma valueBuf_mem (v : List Nat) (n d : Nat)
    (hd : d ∈ (if v.length < n then v ++ List.replicate (n - v.length) 32 else v.take n)) :
    d ∈ v ∨ d = 32 := by
  split at hd
  · rw [List.mem_append] at hd
    rcases hd with hd | hd
    · exact Or.inl hd
    · exact Or.inr (List.mem_replicate.mp hd).2
  · exact Or.inl (List.mem_of_mem_take hd)

lemma valueBuf_len (v : List Nat) (n : Nat) :
    (if v.length < n then v ++ List.replicate (n - v.length) 32 else v.take n).length = n := by
  split
  · rw [List.length_append, List.length_replicate]
    omega
  · rw [List.length_take]
    omega

lemma buildField_eq (ft : Nat) (v : List Nat) (n : Nat) :
    buildField ft v (some n) =
      padStartD 48 2 (decAscii ft) ++ hexPairs (padStartD 0 4 (hexDigits n)) ++
        (if v.length < n then v ++ List.replicate (n - v.length) 32 else v.take n) := rfl

lemma typeBuffer_eq (ft : Nat) (hft : ft < 100) :
    padStartD 48 2 (decAscii ft) = [48 + ft / 10, 48 + ft % 10] := by
  rcases Nat.lt_or_ge ft 10 with h | h
  · unfold decAscii
    rw [decDigits_one ft h]
    unfold padStartD
    rw [Nat.div_eq_of_lt h, Nat.mod_eq_of_lt h]
    rfl
  · unfold decAscii
    rw [decDigits_two ft h hft]
    unfold padStartD
    rfl

lemma lengthBuffer_ten : hexPairs (padStartD 0 4 (hexDigits 10)) = [0, 10] := by decide

lemma lengthBuffer_twelve : hexPairs (padStartD 0 4 (hexDigits 12)) = [0, 12] := by decide

lemma buildField_len_wide (ft n : Nat) (v : List Nat) (hft : ft < 100) (hn : n = 10 ∨ n = 12) :
    (buildField ft v (some n)).length = 4 + n := by
  rw [buildField_eq, List.length_append, List.length_append, typeBuffer_eq ft hft, valueBuf_len]
  rcases hn with rfl | rfl
  · rw [lengthBuffer_ten]
    simp
  · rw [lengthBuffer_twelve]
    simp

lemma buildField_mem_ne3 (ft n : Nat) (v : List Nat) (hft : ft < 100) (hn : n = 10 ∨ n = 12)
    (hv : ∀ b ∈ v, b ≠ 3) : ∀ b ∈ buildField ft v (some n), b ≠ 3 := by
  intro b hb
  rw [buildField_eq] at hb
  simp only [List.mem_append] at hb
  rcases hb with (hb | hb) | hb
  · rw [typeBuffer_eq ft hft] at hb
    simp only [List.mem_cons, List.not_mem_nil, or_false] at hb
    rcases hb with rfl | rfl <;> omega
  · rcases hn with rfl | rfl
    · rw [lengthBuffer_ten] at hb
      simp only [List.mem_cons, List.not_mem_nil, or_false] at hb
      rcases hb with rfl | rfl <;> omega
    · rw [lengthBuffer_twelve] at hb
      simp only [List.mem_cons, List.not_mem_nil, or_false] at hb
      rcases hb with rfl | rfl <;> omega
  · rcases valueBuf_mem v n b hb with h | h
    · exact hv b h
    · omega

lemma purchaseMessage_eq (r : PurchaseReq) :
    purchaseMessage r =
      TRANSPORT_HEADER ++ (if r.sendPan then HEADER_COMPRA_CON_PAN else HEADER_COMPRA) ++
      (28 :: buildField 40 (padStartD 48 12 (decAscii r.amount)) (some 12)) ++
      (28 :: buildField 41 (padStartD 48 12 (decAscii r.tax)) (some 12)) ++
      (28 :: buildField 42 (padEndTrunc 10 r.terminalId) (some 10)) ++
      (28 :: buildField 53 (padEndTrunc 10 r.transactionId) (some 10)) ++
      (28 :: buildField 81 (padStartD 48 12 (decAscii r.tip)) (some 12)) ++
      (28 :: buildField 82 (padStartD 48 12 (decAscii r.iac)) (some 12)) ++
      (28 :: buildField 83 (padEndTrunc 12 r.cashierId) (some 12)) ++
      (28 :: buildField 84 (jsStr ("000000000000")) (some 12)) := by
  unfold purchaseMessage
  simp only [List.foldl_cons, List.foldl_nil, List.append_assoc]

lemma purchaseMessage_len (r : PurchaseReq) : (purchaseMessage r).length = 149 := by
  rw [purchaseMessage_eq]
  simp only [List.length_append, List.length_cons,
    buildField_len_wide 40 12 _ (by omega) (Or.inr rfl),
    buildField_len_wide 41 12 _ (by omega) (Or.inr rfl),
    buildField_len_wide 42 10 _ (by omega) (Or.inl rfl),
    buildField_len_wide 53 10 _ (by omega) (Or.inl rfl),
    buildField_len_wide 81 12 _ (by omega) (Or.inr rfl),
    buildField_len_wide 82 12 _ (by omega) (Or.inr rfl),
    buildField_len_wide 83 12 _ (by omega) (Or.inr rfl),
    buildField_len_wide 84 12 _ (by omega) (Or.inr rfl)]
  have hth : TRANSPORT_HEADER.length = 10 := rfl
  have hph : (if r.sendPan then HEADER_COMPRA_CON_PAN else HEADER_COMPRA).length = 7 := by
    cases r.sendPan <;> rfl
  rw [hth, hph]

lemma purchaseMessage_mem (r : PurchaseReq) (hlegal : LegalPurchase r) :
    ∀ b ∈ purchaseMessage r, b ≠ 3 := by
  obtain ⟨_, _, hbytes⟩ := hlegal
  have hcashier : ∀ b ∈ padEndTrunc 12 r.cashierId, b ≠ 3 := by
    intro b hb
    rcases padEndTrunc_mem _ _ _ hb with h | h
    · have := hbytes b (by rw [List.mem_append, List.mem_append]; exact Or.inl (Or.inl h))
      omega
    · omega
  have hterminal : ∀ b ∈ padEndTrunc 10 r.terminalId, b ≠ 3 := by
    intro b hb
    rcases padEndTrunc_mem _ _ _ hb with h | h
    · have := hbytes b (by rw [List.mem_append, List.mem_append]; exact Or.inl (Or.inr h))
      omega
    · omega
  have htransaction : ∀ b ∈ padEndTrunc 10 r.transactionId, b ≠ 3 := by
    intro b hb
    rcases padEndTrunc_mem _ _ _ hb with h | h
    · have := hbytes b (by rw [List.mem_append]; exact Or.inr h)
      omega
    · omega
  have hnum : ∀ (x b : Nat), b ∈ padStartD 48 12 (decAscii x) → b ≠ 3 := by
    intro x b hb
    rcases padStartD_mem _ _ _ _ hb with h | h
    · omega
    · have := decAscii_mem x b h
      omega
  have hph : (if r.sendPan then HEADER_COMPRA_CON_PAN else HEADER_COMPRA) = HEADER_COMPRA := by
    cases r.sendPan <;> rfl
  intro b hb
  rw [purchaseMessage_eq, hph] at hb
  simp only [List.append_assoc, List.mem_append, List.mem_cons] at hb
  rcases hb with hb | hb | (rfl | hb) | (rfl | hb) | (rfl | hb) | (rfl | hb) | (rfl | hb) |
    (rfl | hb) | (rfl | hb) | (rfl | hb)
  · intro hc
    subst hc
    exact absurd hb (by decide)
  · intro hc
    subst hc
    exact absurd hb (by decide)
  · omega
  · exact buildField_mem_ne3 40 12 _ (by omega) (Or.inr rfl) (hnum r.amount) b hb
  · omega
  · exact buildField_mem_ne3 41 12 _ (by omega) (Or.inr rfl) (hnum r.tax) b hb
  · omega
  · exact buildField_mem_ne3 42 10 _ (by omega) (Or.inl rfl) hterminal b hb
  · omega
  · exact buildField_mem_ne3 53 10 _ (by omega) (Or.inl rfl) htransaction b hb
  · omega
  · exact buildField_mem_ne3 81 12 _ (by omega) (Or.inr rfl) (hnum r.tip) b hb
  · omega
  · exact buildField_mem_ne3 82 12 _ (by omega) (Or.inr rfl) (hnum r.iac) b hb
  · omega
  · exact buildField_mem_ne3 83 12 _ (by omega) (Or.inr rfl) hcashier b hb
  · omega
  · exact buildField_mem_ne3 84 12 _ (by omega) (Or.inr rfl) (by decide) b hb

lemma buildLength_149 : buildLength 149 = [1, 73] := by decide

lemma purchaseFrameCore_eq (r : PurchaseReq) :
    purchaseFrameCore r = 2 :: ([1, 73] ++ (purchaseMessage r ++ [3]) ++
      [lrcVal ([1, 73] ++ (purchaseMessage r ++ [3]))]) := by
  show 2 :: (buildLength (purchaseMessage r).length ++ (purchaseMessage r ++ [3]) ++
      [lrcVal (buildLength (purchaseMessage r).length ++ (purchaseMessage r ++ [3]))]) = _
  rw [purchaseMessage_len, buildLength_149]

lemma purchaseFrameCore_wf (r : PurchaseReq) (h : LegalPurchase r) :
    WellFormedFrame (purchaseFrameCore r) := by
  have hmem := purchaseMessage_mem r h
  have hlen := purchaseMessage_len r
  rw [purchaseFrameCore_eq]
  set msg := purchaseMessage r with hmsg
  set B := [1, 73] ++ (msg ++ [3]) with hBdef
  set L := lrcVal B with hLdef
  have hBlen : B.length = 152 := by
    rw [hBdef]
    simp [List.length_append, hlen]
  have hFlen : (2 :: (B ++ [L])).length = 154 := by
    simp [List.length_append, hBlen]
  unfold WellFormedFrame
  rw [hFlen]
  refine ⟨by omega, rfl, ?_, ?_⟩
  · apply idxOf_of
    · show (2 :: (B ++ [L]))[154 - 2]? = some 3
      rw [List.getElem?_cons]
      norm_num
      rw [List.getElem?_append_left (by omega)]
      rw [hBdef, List.getElem?_append_right (by simp)]
      rw [List.getElem?_append_right (by simp [hlen])]
      simp [hlen]
    · intro j hj
      rw [List.getElem?_cons]
      split
      · simp
      · rename_i hj0
        rw [List.getElem?_append_left (by omega)]
        rw [hBdef, List.getElem?_append]
        split
        · rename_i hj2
          have hcase : j - 1 = 0 ∨ j - 1 = 1 := by
            simp at hj2
            omega
          rcases hcase with hc | hc <;> rw [hc] <;> simp
        · rename_i hj2
          simp only [List.length_cons, List.length_nil] at hj2
          rw [List.getElem?_append_left
            (by simp only [List.length_cons, List.length_nil, hlen]; omega)]
          intro hc
          exact hmem 3 (List.getElem?_mem hc) rfl
  · rw [List.getD_eq_getElem?_getD]
    norm_num
    rw [List.getElem?_append_right (by omega), hBlen]
    norm_num
    have hslice : slice (2 :: (B ++ [L])) 1 153 = B := by
      unfold slice
      rw [List.drop_one]
      show (B ++ [L]).take 152 = B
      rw [← hBlen, List.take_left]
    rw [hslice]

lemma slice_set_inside (l : List Nat) (i b s e : Nat) (hs : s ≤ i) (hi : i < e)
    (he : e ≤ l.length) :
    slice (l.set i b) s e = (slice l s e).set (i - s) b := by
  apply List.ext_getElem?
  intro n
  rw [slice_getElem?, List.getElem?_set, List.getElem?_set, slice_getElem?]
  have hslen : (slice l s e).length = e - s := slice_length l s e he (by omega)
  rw [hslen]
  split_ifs <;> first | rfl | omega

lemma slice_set_after (l : List Nat) (i b s e : Nat) (hie : e ≤ i) :
    slice (l.set i b) s e = slice l s e := by
  apply List.ext_getElem?
  intro n
  rw [slice_getElem?, slice_getElem?]
  split
  · rename_i hn
    rw [List.getElem?_set_ne (by omega)]
  · rfl

lemma validateFrame_set_mid (F : List Nat) (hF : WellFormedFrame F) (i b : Nat)
    (h1 : 1 ≤ i) (h2 : i < F.length - 2) (hne : b ≠ F.getD i 0) (h3 : b ≠ 3) :
    (validateFrame (F.set i b)).valid = false := by
  obtain ⟨h5, h0, hidx, hlrc⟩ := hF
  obtain ⟨hget, hbefore⟩ := idxOf_spec 3 F _ hidx
  have hGlen : (F.set i b).length = F.length := List.length_set F i b
  have hidxG : idxOf 3 (F.set i b) = some (F.length - 2) := by
    apply idxOf_of
    · rw [List.getElem?_set_ne (by omega)]
      exact hget
    · intro j hj
      by_cases hji : j = i
      · subst hji
        rw [List.getElem?_set, if_pos rfl, if_pos (by omega)]
        intro hc
        exact h3 (Option.some.inj hc)
      · rw [List.getElem?_set_ne (fun hc => hji hc.symm)]
        exact hbefore j hj
  have hG0 : (F.set i b).getD 0 0 = 2 := by
    rw [List.getD_eq_getElem?_getD, List.getElem?_set_ne (by omega),
      ← List.getD_eq_getElem?_getD, h0]
  have hGlast : (F.set i b).getD ((F.set i b).length - 1) 0 = F.getD (F.length - 1) 0 := by
    rw [hGlen, List.getD_eq_getElem?_getD, List.getElem?_set_ne (by omega),
      ← List.getD_eq_getElem?_getD]
  have hexp : lrcVal (slice (F.set i b) 1 (F.length - 2 + 1)) =
      lrcVal (slice F 1 (F.length - 1)) ^^^ (F.getD i 0 ^^^ b) := by
    have harith : F.length - 2 + 1 = F.length - 1 := by omega
    rw [harith, slice_set_inside F i b 1 (F.length - 1) (by omega) (by omega) (by omega)]
    rw [lrcVal_set _ (i - 1) (by rw [slice_length F 1 (F.length - 1) (by omega) (by omega)]; omega) b]
    have hgd : (slice F 1 (F.length - 1)).getD (i - 1) 0 = F.getD i 0 := by
      rw [List.getD_eq_getElem?_getD, slice_getElem?, if_pos (by omega),
        show 1 + (i - 1) = i by omega, ← List.getD_eq_getElem?_getD]
    rw [hgd, Nat.xor_assoc]
  have hxne : F.getD i 0 ^^^ b ≠ 0 := by
    intro hc
    exact hne (Nat.xor_eq_zero.mp hc).symm
  have hcond : ¬ lrcVal (slice (F.set i b) 1 (F.length - 2 + 1)) =
      (F.set i b).getD ((F.set i b).length - 1) 0 := by
    rw [hexp, hGlast, ← hlrc]
    intro hc
    have hz : F.getD (F.length - 1) 0 ^^^ (F.getD i 0 ^^^ b) =
        F.getD (F.length - 1) 0 ^^^ 0 := by
      rw [Nat.xor_zero]
      exact hc
    exact hxne (xor_left_cancel _ _ _ hz)
  have hlen5 : ¬ (F.set i b).length < 5 := by omega
  have h02 : ¬ ¬ (F.set i b).getD 0 0 = 2 := by rw [hG0]; simp
  simp only [validateFrame, if_neg hlen5, if_neg h02, hidxG]
  rw [if_pos hcond]

lemma validateFrame_set_last (F : List Nat) (hF : WellFormedFrame F) (b : Nat)
    (hne : b ≠ F.getD (F.length - 1) 0) :
    (validateFrame (F.set (F.length - 1) b)).valid = false := by
  obtain ⟨h5, h0, hidx, hlrc⟩ := hF
  obtain ⟨hget, hbefore⟩ := idxOf_spec 3 F _ hidx
  have hGlen : (F.set (F.length - 1) b).length = F.length := List.length_set F _ b
  have hidxG : idxOf 3 (F.set (F.length - 1) b) = some (F.length - 2) := by
    apply idxOf_of
    · rw [List.getElem?_set_ne (by omega)]
      exact hget
    · intro j hj
      rw [List.getElem?_set_ne (by omega)]
      exact hbefore j hj
  have hG0 : (F.set (F.length - 1) b).getD 0 0 = 2 := by
    rw [List.getD_eq_getElem?_getD, List.getElem?_set_ne (by omega),
      ← List.getD_eq_getElem?_getD, h0]
  have hGlast : (F.set (F.length - 1) b).getD ((F.set (F.length - 1) b).length - 1) 0 = b := by
    rw [hGlen, List.getD_eq_getElem?_getD, List.getElem?_set, if_pos rfl, if_pos (by omega)]
    rfl
  have hexp : lrcVal (slice (F.set (F.length - 1) b) 1 (F.length - 2 + 1)) =
      lrcVal (slice F 1 (F.length - 1)) := by
    have harith : F.length - 2 + 1 = F.length - 1 := by omega
    rw [harith, slice_set_after F (F.length - 1) b 1 (F.length - 1) (by omega)]
  have hcond : ¬ lrcVal (slice (F.set (F.length - 1) b) 1 (F.length - 2 + 1)) =
      (F.set (F.length - 1) b).getD ((F.set (F.length - 1) b).length - 1) 0 := by
    rw [hexp, hGlast, ← hlrc]
    intro hc
    exact hne hc.symm
  have hlen5 : ¬ (F.set (F.length - 1) b).length < 5 := by omega
  have h02 : ¬ ¬ (F.set (F.length - 1) b).getD 0 0 = 2 := by rw [hG0]; simp
  simp only [validateFrame, if_neg hlen5, if_neg h02, hidxG]
  rw [if_pos hcond]

/-! Lemmas about the TLV scanner of parseResponse. -/

lemma objSet_mem (acc : Fields) (k : List Nat) (v : FieldEntry) :
    ∀ p ∈ objSet acc k v, p = (k, v) ∨ p ∈ acc := by
  induction acc with
  | nil =>
    intro p hp
    simp only [objSet, List.mem_singleton] at hp
    exact Or.inl hp
  | cons kv t ih =>
    obtain ⟨k0, v0⟩ := kv
    intro p hp
    simp only [objSet] at hp
    split at hp
    · rcases List.mem_cons.mp hp with h | h
      · exact Or.inl h
      · exact Or.inr (List.mem_cons.mpr (Or.inr h))
    · rcases List.mem_cons.mp hp with h | h
      · exact Or.inr (List.mem_cons.mpr (Or.inl h))
      · rcases ih p h with h2 | h2
        · exact Or.inl h2
        · exact Or.inr (List.mem_cons.mpr (Or.inr h2))

lemma objGet_mem (l : Fields) (k : List Nat) (e : FieldEntry) (h : objGet l k = some e) :
    (k, e) ∈ l := by
  induction l with
  | nil => cases h
  | cons kv t ih =>
    obtain ⟨k0, v0⟩ := kv
    simp only [objGet] at h
    split at h
    · rename_i heq
      subst heq
      have hv := Option.some.inj h
      subst hv
      exact List.mem_cons.mpr (Or.inl rfl)
    · exact List.mem_cons.mpr (Or.inr (ih h))

lemma scanFieldsAux_inv : ∀ (fuel : Nat) (buf : List Nat) (pos : Nat) (acc : Fields),
    (∀ p ∈ acc, p.2.ascii = jsTrim (bufferAscii p.2.value)) →
    ∀ p ∈ scanFieldsAux fuel buf pos acc, p.2.ascii = jsTrim (bufferAscii p.2.value) := by
  intro fuel
  induction fuel with
  | zero =>
    intro buf pos acc hacc p hp
    exact hacc p hp
  | succ f ih =>
    intro buf pos acc hacc p hp
    simp only [scanFieldsAux] at hp
    split at hp
    · split at hp
      · split at hp
        · split at hp
          · split at hp
            · refine ih _ _ _ ?_ p hp
              intro q hq
              rcases objSet_mem _ _ _ q hq with h | h
              · rw [h]
              · exact hacc q h
            · exact ih _ _ _ hacc p hp
          · exact ih _ _ _ hacc p hp
        · exact ih _ _ _ hacc p hp
      · exact ih _ _ _ hacc p hp
    · exact hacc p hp

lemma scanFields_inv (bs : List Nat) :
    ∀ p ∈ scanFields bs, p.2.ascii = jsTrim (bufferAscii p.2.value) :=
  scanFieldsAux_inv bs.length bs 0 [] (by intro p hp; cases hp)

/-! The claims. -/

/-- C1: the decoded result has success = true exactly when the parsed fields
contain field 48 (stored under the hex key 3438 of its two ASCII type bytes)
whose ascii value, with surrounding whitespace trimmed, equals 00; any other
trimmed value, and absence of the field, yields success = false with status
DECLINED. -/
theorem C1_approval_iff (bs : List Nat) :
    ((parseResponse bs).success = true ↔
      ∃ e, objGet (scanFields bs) (jsStr ("3438")) = some e ∧
        jsTrim (bufferAscii e.value) = jsStr ("00")) ∧
    ((parseResponse bs).success = false → (parseResponse bs).status = jsStr ("DECLINED")) := by
  have hinv := scanFields_inv bs
  by_cases hempty : bs.length = 0
  · have hbs : bs = [] := List.eq_nil_of_length_eq_zero hempty
    subst hbs
    constructor
    · constructor
      · intro hc
        simp [parseResponse] at hc
      · rintro ⟨e, he, _⟩
        cases he
    · intro _
      rfl
  · unfold parseResponse
    rw [if_neg hempty]
    unfold validateParsedTransaction
    rcases hobj : objGet (scanFields bs) (jsStr ("3438")) with _ | e
    · simp only [hobj, Option.map_none']
      constructor
      · constructor
        · intro hc
          simp at hc
        · rintro ⟨e, he, _⟩
          cases he
      · intro _
        trivial
    · simp only [hobj, Option.map_some']
      have hasc : e.ascii = jsTrim (bufferAscii e.value) :=
        hinv (jsStr ("3438"), e) (objGet_mem _ _ _ hobj)
      by_cases hrc : e.ascii = jsStr ("00")
      · rw [if_pos hrc]
        constructor
        · constructor
          · intro _
            refine ⟨e, rfl, ?_⟩
            rw [← hasc]
            exact hrc
          · intro _
            trivial
        · intro hc
          simp at hc
      · rw [if_neg hrc]
        constructor
        · constructor
          · intro hc
            simp at hc
          · rintro ⟨e2, he2, ht2⟩
            have he2e : e = e2 := Option.some.inj he2
            subst he2e
            exact absurd (by rw [hasc]; exact ht2) hrc
        · intro _
          trivial

/-- C1 witness: the declined fixture evaluates under the theorem. -/
theorem C1_approval_iff_witness :
    (parseResponse bs51).success = false ∧ (parseResponse bs51).status = jsStr ("DECLINED") :=
  ⟨by decide, (C1_approval_iff bs51).2 (by decide)⟩

/-- C4 counterexample: a response whose field 48 trims to 51 is returned with
the constant message Pago rechazado, not the dictionary message Fondos
insuficientes; the code travels in errorCode only. -/
theorem C4_declined_message_cex :
    (parseResponse bs51).errorCode = some (jsStr ("51")) ∧
    (parseResponse bs51).message ≠ jsStr ("Fondos insuficientes") ∧
    (parseResponse bs51).message = jsStr ("Pago rechazado") := by decide

/-- C4 amended: a declined decode carries the two-character code in errorCode
while message is always the constant Pago rechazado; the dictionary function
getResponseMessage does map 51 to Fondos insuficientes and unknown codes to
the Código desconocido fallback, but validateParsedTransaction never calls it. -/
theorem C4_declined_amended (bs : List Nat) (e : FieldEntry)
    (h : objGet (scanFields bs) (jsStr ("3438")) = some e) (hne : e.ascii ≠ jsStr ("00")) :
    parseResponse bs =
      ⟨false, jsStr ("DECLINED"), jsStr ("Pago rechazado"), some e.ascii, none⟩ ∧
    getResponseMessage (jsStr ("51")) = jsStr ("Fondos insuficientes") ∧
    ∀ code, msgLookup responseMessages code = none →
      getResponseMessage code = jsStr ("Código desconocido: ") ++ code := by
  refine ⟨?_, by decide, ?_⟩
  · have hbs : ¬ bs.length = 0 := by
      intro h0
      rw [List.eq_nil_of_length_eq_zero h0] at h
      cases h
    unfold parseResponse
    rw [if_neg hbs]
    unfold validateParsedTransaction
    simp only [h, Option.map_some']
    rw [if_neg hne]
  · intro code hcode
    unfold getResponseMessage
    rw [hcode]
    rfl

/-- C4 witness: the amended theorem applied to the declined fixture. -/
theorem C4_declined_amended_witness :
    parseResponse bs51 =
      ⟨false, jsStr ("DECLINED"), jsStr ("Pago rechazado"), some (jsStr ("51")), none⟩ ∧
    getResponseMessage (jsStr ("51")) = jsStr ("Fondos insuficientes") := by
  have h := C4_declined_amended bs51 e51 (by decide) (by decide)
  refine ⟨?_, h.2.1⟩
  rw [h.1]
  decide

/-- C2 counterexample: a second sendAndReceive issued while a transaction is
pending does not fail with any synchronous error; it succeeds and the
pendingResolves map then holds two entries. -/
theorem C2_no_busy_cex :
    sendAndReceive busyState (jsStr ("AA")) 2 60000 =
      Except.ok ⟨true, [⟨1, 60000⟩, ⟨2, 60000⟩], [], [jsStr ("AA")], [], []⟩ := rfl

/-- C2 amended: a sendAndReceive call under a fresh Date.now key while another
transaction is pending succeeds (there is no Busy failure), appends a second
pending entry after the first, and a subsequent valid frame resolves the first
transaction, leaving the second pending. -/
theorem C2_second_call_registers (s : SerialState) (f : List Nat) (id1 t1 id2 t2 : Nat)
    (hc : s.isConnected = true) (hp : s.pending = [⟨id1, t1⟩]) (hne : id2 ≠ id1)
    (hb : s.buffer = []) :
    sendAndReceive s f id2 t2 =
      Except.ok { s with pending := [⟨id1, t1⟩, ⟨id2, t2⟩], sent := s.sent ++ [f] } ∧
    ∀ F, WellFormedFrame F →
      (handleData { s with pending := [⟨id1, t1⟩, ⟨id2, t2⟩], sent := s.sent ++ [f] } F).pending =
        [⟨id2, t2⟩] ∧
      (handleData { s with pending := [⟨id1, t1⟩, ⟨id2, t2⟩], sent := s.sent ++ [f] } F).completions = s.completions ++ [(id1, Completion.resolved (parseResponse F))] := by
  have hms : mapSet [⟨id1, t1⟩] id2 t2 = [⟨id1, t1⟩, ⟨id2, t2⟩] := by
    unfold mapSet
    rw [if_neg (by simp; omega)]
    rfl
  constructor
  · unfold sendAndReceive
    rw [if_pos hc, hp, hms]
  · intro F hF
    rw [handleData_completing { s with pending := [⟨id1, t1⟩, ⟨id2, t2⟩], sent := s.sent ++ [f] } F F 0 hF hb rfl]
    unfold consumeFrame resolvePending
    simp

/-- C2 witness: the amended theorem at a concrete busy coordinator. -/
theorem C2_second_call_registers_witness :
    sendAndReceive busyState (jsStr ("AA")) 2 60000 =
      Except.ok { busyState with pending := [⟨1, 60000⟩, ⟨2, 60000⟩], sent := busyState.sent ++ [jsStr ("AA")] } ∧
    (handleData { busyState with pending := [⟨1, 60000⟩, ⟨2, 60000⟩], sent := busyState.sent ++ [jsStr ("AA")] } Fsmall).pending = [⟨2, 60000⟩] ∧
    (handleData { busyState with pending := [⟨1, 60000⟩, ⟨2, 60000⟩], sent := busyState.sent ++ [jsStr ("AA")] } Fsmall).completions =
      busyState.completions ++ [(1, Completion.resolved (parseResponse Fsmall))] := by
  have h := C2_second_call_registers busyState (jsStr ("AA")) 1 60000 2 60000 rfl rfl
    (by decide) rfl
  exact ⟨h.1, (h.2 Fsmall (by decide)).1, (h.2 Fsmall (by decide)).2⟩

/-- C3 counterexample: in the frame encoded for the sample request the bytes
at positions 1..5 are not four decimal ASCII digit characters: position 1
holds the raw byte 1 (the hex-decoded BCD length), so the claimed layout is
absent. -/
theorem C3_length_field_cex :
    buildPurchaseFrame rSample = Except.ok (purchaseFrameCore rSample) ∧
    (purchaseFrameCore rSample).getD 1 0 = 1 ∧
    ¬ (∀ i, 1 ≤ i → i < 5 → 48 ≤ (purchaseFrameCore rSample).getD i 0 ∧
        (purchaseFrameCore rSample).getD i 0 ≤ 57) := by
  refine ⟨rfl, by decide, ?_⟩
  intro hc
  have h2 := hc 1 (by omega) (by omega)
  have h1 : (purchaseFrameCore rSample).getD 1 0 = 1 := by decide
  omega

/-- C3 amended: the encoded frame carries its length as the TWO bytes at
positions 1..3, the hex-decoding (BCD) of the 4-decimal-digit rendering of the
body length excluding ETX, which equals len(F) - 5; for every legal purchase
request those bytes are 0x01 0x49 (body length 149, frame length 154). -/
theorem C3_length_field_amended (r : PurchaseReq) (h1 : r.amount ≠ 0)
    (h2 : r.transactionId ≠ []) :
    buildPurchaseFrame r = Except.ok (purchaseFrameCore r) ∧
    (purchaseFrameCore r).length = 154 ∧
    slice (purchaseFrameCore r) 1 3 = buildLength ((purchaseFrameCore r).length - 5) ∧
    buildLength ((purchaseFrameCore r).length - 5) = [1, 73] := by
  have hlenf : (purchaseFrameCore r).length = 154 := by
    rw [purchaseFrameCore_eq]
    simp [List.length_append, purchaseMessage_len]
  have hbl : buildLength ((purchaseFrameCore r).length - 5) = [1, 73] := by
    rw [hlenf]
    norm_num
    exact buildLength_149
  refine ⟨?_, hlenf, ?_, hbl⟩
  · unfold buildPurchaseFrame
    rw [if_neg ?_]
    intro hcc
    rcases hcc with hcc | hcc
    · exact h1 hcc
    · exact h2 hcc
  · rw [hbl, purchaseFrameCore_eq]
    unfold slice
    rw [List.drop_one]
    show (([1, 73] ++ (purchaseMessage r ++ [3])) ++
      [lrcVal ([1, 73] ++ (purchaseMessage r ++ [3]))]).take 2 = [1, 73]
    rw [List.append_assoc]
    rw [List.take_left' (show ([1, 73] : List Nat).length = 2 from rfl)]

/-- C3 witness: the amended theorem at the sample request. -/
theorem C3_length_field_amended_witness :
    buildPurchaseFrame rSample = Except.ok (purchaseFrameCore rSample) ∧
    (purchaseFrameCore rSample).length = 154 ∧
    slice (purchaseFrameCore rSample) 1 3 =
      buildLength ((purchaseFrameCore rSample).length - 5) ∧
    buildLength ((purchaseFrameCore rSample).length - 5) = [1, 73] :=
  C3_length_field_amended rSample (by decide) (by decide)

/-- C5 counterexample: flipping byte 150 of the sample frame (originally 0x30)
to 0x03 injects an early ETX whose following body bytes XOR to zero, and
validateFrame still reports the mutated frame valid. -/
theorem C5_flip_valid_cex :
    (purchaseFrameCore rSample).getD 150 0 = 48 ∧
    (validateFrame (purchaseFrameCore rSample)).valid = true ∧
    (validateFrame ((purchaseFrameCore rSample).set 150 3)).valid = true := by
  decide

/-- C5 amended: every frame built by the purchase encoder from a legal request
validates; flipping a byte strictly between position 1 and the ETX to any value
other than 0x03, or flipping the trailing LRC byte, is reported invalid (a flip
to 0x03 can forge an early ETX that still validates, as the counterexample
shows). -/
theorem C5_lrc_selfcheck_amended (r : PurchaseReq) (h : LegalPurchase r) :
    (validateFrame (purchaseFrameCore r)).valid = true ∧
    (∀ i b, 1 ≤ i → i < (purchaseFrameCore r).length - 2 →
      b ≠ (purchaseFrameCore r).getD i 0 → b ≠ 3 →
      (validateFrame ((purchaseFrameCore r).set i b)).valid = false) ∧
    (∀ b, b ≠ (purchaseFrameCore r).getD ((purchaseFrameCore r).length - 1) 0 →
      (validateFrame ((purchaseFrameCore r).set
        ((purchaseFrameCore r).length - 1) b)).valid = false) := by
  have hwf := purchaseFrameCore_wf r h
  refine ⟨by rw [validateFrame_of_wf _ hwf], ?_, ?_⟩
  · intro i b hi1 hi2 hbne hb3
    exact validateFrame_set_mid _ hwf i b hi1 hi2 hbne hb3
  · intro b hbne
    exact validateFrame_set_last _ hwf b hbne

/-- C5 witness: the amended theorem at the sample request with concrete flips. -/
theorem C5_lrc_selfcheck_amended_witness :
    (validateFrame (purchaseFrameCore rSample)).valid = true ∧
    (validateFrame ((purchaseFrameCore rSample).set 5 65)).valid = false ∧
    (validateFrame ((purchaseFrameCore rSample).set
      ((purchaseFrameCore rSample).length - 1) 256)).valid = false := by
  have h := C5_lrc_selfcheck_amended rSample (by decide)
  exact ⟨h.1, h.2.1 5 65 (by omega) (by decide) (by decide) (by decide),
    h.2.2 256 (by decide)⟩

/-- C6 counterexample: with unrestricted trailing garbage the coordinator can
produce a second decoded response: delivering a valid frame followed by a
trailing copy of it yields two entries in the decode log, not exactly one. -/
theorem C6_trailing_frame_cex :
    (runDeliveries smInit ([] ++ [Fsmall] ++ [Fsmall])).decodedLog.length = 2 := by
  decide

/-- C6 amended: for a well-formed frame F delivered in arbitrary nonempty
chunks, preceded by garbage chunks containing no 0x02 and followed by trailing
chunks containing no 0x02, the coordinator decodes exactly one response and it
equals parseResponse F. -/
theorem C6_reassembly_amended (s : SerialState) (gs cs ts : List (List Nat)) (F : List Nat)
    (hbuf : s.buffer = []) (hg : ∀ g ∈ gs, ¬ 2 ∈ g) (hF : WellFormedFrame F)
    (hcs : cs ≠ []) (hne : ∀ c ∈ cs, c ≠ []) (hjoin : cs.flatten = F)
    (ht : ∀ t ∈ ts, ¬ 2 ∈ t) :
    (runDeliveries s (gs ++ cs ++ ts)).decodedLog = s.decodedLog ++ [parseResponse F] := by
  have hsplit : runDeliveries s (gs ++ cs ++ ts) =
      runDeliveries (runDeliveries (runDeliveries s gs) cs) ts := by
    unfold runDeliveries
    rw [List.foldl_append, List.foldl_append]
  rw [hsplit, runDeliveries_garbage s gs hbuf hg]
  rw [runDeliveries_frame_chunks F hF cs 0 { s with buffer := [] } hcs hne rfl
    (by simp [hjoin])]
  rw [consumeFrame_buffer]
  rw [runDeliveries_garbage _ ts rfl ht]
  unfold consumeFrame resolvePending
  cases hp : s.pending <;> simp [hp]

/-- C6 witness: garbage, two chunks of the small frame, then trailing garbage. -/
theorem C6_reassembly_amended_witness :
    (runDeliveries smInit ([[9, 6, 9]] ++ [[2, 48], [52, 3, 7]] ++ [[1, 9]])).decodedLog =
      smInit.decodedLog ++ [parseResponse Fsmall] :=
  C6_reassembly_amended smInit [[9, 6, 9]] [[2, 48], [52, 3, 7]] [[1, 9]] Fsmall rfl
    (by decide) (by decide) (by decide) (by decide) (by decide) (by decide)

/-- C7 counterexample: the TLV length is not emitted as the four hex ASCII
characters 000C: the record for field 40 at width 12 is 16 bytes long with raw
bytes 0x00 0x0C at positions 2..4. -/
theorem C7_tlv_length_cex :
    buildField 40 (jsStr ("x")) (some 12) =
      [52, 48, 0, 12, 120, 32, 32, 32, 32, 32, 32, 32, 32, 32, 32, 32] ∧
    (buildField 40 (jsStr ("x")) (some 12)).length = 16 ∧
    slice (buildField 40 (jsStr ("x")) (some 12)) 2 6 ≠ jsStr ("000C") := by
  decide

/-- C7 amended: every TLV emitted by the purchase encoder is the field number
as two decimal ASCII digits, then the value byte count as TWO bytes (the
big-endian binary value, 12 becoming 0x00 0x0C rather than the four characters
000C), then exactly that many value bytes, right-padded with spaces or
right-truncated. -/
theorem C7_tlv_amended (ft : Nat) (v : List Nat) (n : Nat) (hft : ft < 100)
    (hn : n = 10 ∨ n = 12) :
    buildField ft v (some n) =
      [48 + ft / 10, 48 + ft % 10] ++ [n / 256, n % 256] ++
        (if v.length < n then v ++ List.replicate (n - v.length) 32 else v.take n) ∧
    (buildField ft v (some n)).length = 4 + n ∧
    (v.length < n → (if v.length < n then v ++ List.replicate (n - v.length) 32
      else v.take n) = v ++ List.replicate (n - v.length) 32) ∧
    (n ≤ v.length → (if v.length < n then v ++ List.replicate (n - v.length) 32
      else v.take n) = v.take n) := by
  refine ⟨?_, buildField_len_wide ft n v hft hn, ?_, ?_⟩
  · rw [buildField_eq, typeBuffer_eq ft hft]
    rcases hn with rfl | rfl
    · rw [lengthBuffer_ten]
    · rw [lengthBuffer_twelve]
  · intro hlt
    rw [if_pos hlt]
  · intro hge
    rw [if_neg (by omega)]

/-- C7 witness: the amended theorem for field 40 at width 12. -/
theorem C7_tlv_amended_witness :
    buildField 40 (jsStr ("x")) (some 12) =
      [48 + 40 / 10, 48 + 40 % 10] ++ [12 / 256, 12 % 256] ++
        (jsStr ("x") ++ List.replicate (12 - (jsStr ("x")).length) 32) ∧
    (buildField 40 (jsStr ("x")) (some 12)).length = 4 + 12 := by
  have h := C7_tlv_amended 40 (jsStr ("x")) 12 (by omega) (Or.inr rfl)
  refine ⟨?_, h.2.1⟩
  rw [h.1, h.2.2.1 (by decide)]

/-- C8: a pending transaction no frame completes is, at expiry of its timeout
(default 60000 ms), completed with the timeout rejection and removed, leaving
the coordinator idle; a well-formed frame arriving afterwards is still parsed
and acknowledged with the single ACK byte 0x06, but its decoded response is
dropped and no promise is resolved. -/
theorem C8_timeout_then_late_frame (s0 s1 s2 : SerialState) (f : List Nat) (txId T : Nat)
    (hc : s0.isConnected = true) (hp : s0.pending = []) (hb : s0.buffer = [])
    (hsend : sendAndReceive s0 f txId T = Except.ok s1) (hfire : s2 = fireTimeout s1 txId) :
    defaultTimeoutMs = 60000 ∧
    s1.pending = [⟨txId, T⟩] ∧
    s2.pending = [] ∧
    s2.completions = s0.completions ++ [(txId, Completion.timedOut)] ∧
    ∀ F, WellFormedFrame F →
      (handleData s2 F).sent = s2.sent ++ [[6]] ∧
      (handleData s2 F).decodedLog = s2.decodedLog ++ [parseResponse F] ∧
      (handleData s2 F).completions = s2.completions ∧
      (handleData s2 F).pending = [] := by
  unfold sendAndReceive at hsend
  rw [if_pos hc, hp] at hsend
  have hs1 : s1 = { s0 with pending := [⟨txId, T⟩], sent := s0.sent ++ [f] } :=
    (Except.ok.inj hsend).symm
  subst hs1
  have hs2 : s2 = { s0 with pending := [], sent := s0.sent ++ [f], completions := s0.completions ++ [(txId, Completion.timedOut)] } := by
    rw [hfire]
    unfold fireTimeout
    rw [if_pos (by simp)]
    simp [List.filter_cons]
  subst hs2
  refine ⟨rfl, rfl, rfl, rfl, ?_⟩
  intro F hF
  rw [handleData_completing { s0 with pending := [], sent := s0.sent ++ [f], completions := s0.completions ++ [(txId, Completion.timedOut)] } F F 0 hF hb rfl]
  unfold consumeFrame resolvePending
  simp

/-- C8 witness: the theorem at a concrete fresh coordinator. -/
theorem C8_timeout_then_late_frame_witness :
    (fireTimeout ⟨true, [⟨7, 60000⟩], [], [[2]], [], []⟩ 7).pending = [] ∧
    (fireTimeout ⟨true, [⟨7, 60000⟩], [], [[2]], [], []⟩ 7).completions =
      [(7, Completion.timedOut)] ∧
    (handleData (fireTimeout ⟨true, [⟨7, 60000⟩], [], [[2]], [], []⟩ 7) Fsmall).sent =
      (fireTimeout ⟨true, [⟨7, 60000⟩], [], [[2]], [], []⟩ 7).sent ++ [[6]] ∧
    (handleData (fireTimeout ⟨true, [⟨7, 60000⟩], [], [[2]], [], []⟩ 7) Fsmall).completions =
      (fireTimeout ⟨true, [⟨7, 60000⟩], [], [[2]], [], []⟩ 7).completions ∧
    (handleData (fireTimeout ⟨true, [⟨7, 60000⟩], [], [[2]], [], []⟩ 7) Fsmall).pending = [] := by
  have h := C8_timeout_then_late_frame smInit
    ⟨true, [⟨7, 60000⟩], [], [[2]], [], []⟩
    (fireTimeout ⟨true, [⟨7, 60000⟩], [], [[2]], [], []⟩ 7) [2] 7 60000
    rfl rfl rfl rfl rfl
  have hlate := h.2.2.2.2 Fsmall (by decide)
  exact ⟨h.2.2.1, h.2.2.2.1, hlate.1, hlate.2.2.1, hlate.2.2.2⟩

/-- C9: connect never reports an error to its caller; when opening fails, or
when the configured port is the literal COM3 on a non-Windows host and no
conventional POSIX device is available, connect still completes successfully
and the failure is observable only as connected = false through getStatus. -/
theorem C9_connect_never_errors (env : ConnectEnv) (baud : Nat) :
    (connect env).returnedError = false ∧
    (env.openError = true → (connect env).connected = false) ∧
    ((env.platform ≠ jsStr ("win32") ∧ env.configPort = jsStr ("COM3") ∧
        macPorts.find? (fun p => env.availablePorts.contains p) = none) →
      (connect env).connected = false) ∧
    (getStatus (connect env).connected env.configPort baud env.platform).connected =
      (connect env).connected := by
  refine ⟨?_, ?_, ?_, rfl⟩
  · unfold connect
    split
    · cases macPorts.find? (fun p => env.availablePorts.contains p) <;>
        cases env.openError <;> simp
    · cases env.openError <;> simp
  · intro hoe
    unfold connect
    split
    · cases macPorts.find? (fun p => env.availablePorts.contains p) <;> simp [hoe]
    · simp [hoe]
  · rintro ⟨h1, h2, h3⟩
    unfold connect
    rw [if_pos ⟨h1, h2⟩, h3]

/-- C9 witness: a macOS host configured with COM3, no devices, failing open. -/
theorem C9_connect_never_errors_witness :
    (connect envSample).returnedError = false ∧
    (connect envSample).connected = false ∧
    (getStatus (connect envSample).connected envSample.configPort 9600
      envSample.platform).connected = (connect envSample).connected := by
  have h := C9_connect_never_errors envSample 9600
  exact ⟨h.1, h.2.1 (by decide), h.2.2.2⟩

/-- C10: the validateFrame verdict depends only on the bytes up to and
including the first ETX and on the final byte: two frames of length at least 5
agreeing there receive identical verdicts, whatever their declared length
fields or the bytes between the first ETX and the last byte. -/
theorem C10_validate_ignores_middle (F G : List Nat) (k : Nat)
    (h5F : 5 ≤ F.length) (h5G : 5 ≤ G.length)
    (hkF : idxOf 3 F = some k) (htake : F.take (k + 1) = G.take (k + 1))
    (hlast : F.getD (F.length - 1) 0 = G.getD (G.length - 1) 0) :
    validateFrame F = validateFrame G := by
  obtain ⟨hget, hbefore⟩ := idxOf_spec 3 F k hkF
  have hkltF : k < F.length := by
    by_contra hcontra
    push_neg at hcontra
    rw [List.getElem?_eq_none (by omega)] at hget
    cases hget
  have hklG : k < G.length := by
    have hlt := congrArg List.length htake
    rw [List.length_take, List.length_take] at hlt
    omega
  have hgetG : G[k]? = some 3 := by
    have hx : (G.take (k + 1))[k]? = G[k]? := List.getElem?_take_of_lt (by omega)
    rw [← hx, ← htake, List.getElem?_take_of_lt (by omega)]
    exact hget
  have hbeforeG : ∀ j, j < k → G[j]? ≠ some 3 := by
    intro j hj
    have hx : (G.take (k + 1))[j]? = G[j]? := List.getElem?_take_of_lt (by omega)
    rw [← hx, ← htake, List.getElem?_take_of_lt (by omega)]
    exact hbefore j hj
  have hkG : idxOf 3 G = some k := idxOf_of 3 G k hgetG hbeforeG
  have h0 : F.getD 0 0 = G.getD 0 0 := by
    rw [List.getD_eq_getElem?_getD, List.getD_eq_getElem?_getD]
    have hxF : (F.take (k + 1))[0]? = F[0]? := List.getElem?_take_of_lt (by omega)
    have hxG : (G.take (k + 1))[0]? = G[0]? := List.getElem?_take_of_lt (by omega)
    rw [← hxF, ← hxG, htake]
  have hslice : slice F 1 (k + 1) = slice G 1 (k + 1) := by
    unfold slice
    rw [← List.drop_take (k + 1) 1 F, ← List.drop_take (k + 1) 1 G, htake]
  unfold validateFrame
  rw [if_neg (show ¬ F.length < 5 by omega), if_neg (show ¬ G.length < 5 by omega)]
  simp only [hkF, hkG]
  rw [h0, hslice, hlast]

/-- C10 witness: two concrete frames differing between ETX and the last byte. -/
theorem C10_validate_ignores_middle_witness :
    validateFrame FsampleA = validateFrame FsampleB ∧
    (validateFrame FsampleA).valid = true ∧ FsampleA ≠ FsampleB := by
  refine ⟨C10_validate_ignores_middle FsampleA FsampleB 3 (by decide) (by decide)
    (by decide) (by decide) (by decide), by decide, by decide⟩

end TefBridge
